import Mathlib

/-!
Verification development for the bot review and secure custody subsystem of a
poker tournament server.  The Python modules `secure_bot_storage.py`,
`bot_approval_system.py` and `secure_admin_auth.py` are shallowly embedded as
pure Lean functions over explicit state records.  Python dictionaries are
modelled as association lists with string keys; clock readings, random salts
and generated submission identifiers are passed in as explicit parameters;
cryptographic primitives (PBKDF2 key derivation, Fernet authenticated
encryption, salted password hashes) are modelled symbolically at the level of
their interface contracts.
-/

namespace PokerCustody

/-- Association-list lookup, modelling Python dict access `d[k]` / `d.get(k)`. -/
def alGet {α : Type} (l : List (String × α)) (k : String) : Option α :=
  match l with
  | [] => none
  | p :: ps => if p.1 == k then some p.2 else alGet ps k

/-- Association-list key membership, modelling Python `k in d`. -/
def alHas {α : Type} (l : List (String × α)) (k : String) : Bool :=
  (alGet l k).isSome

/-- Association-list removal, modelling Python `del d[k]` (no-op when the key
is absent, which also covers the guarded `if k in d: del d[k]` idiom). -/
def alErase {α : Type} (l : List (String × α)) (k : String) : List (String × α) :=
  l.filter (fun p => !(p.1 == k))

/-- Association-list update, modelling Python `d[k] = v`. -/
def alSet {α : Type} (l : List (String × α)) (k : String) (v : α) : List (String × α) :=
  (k, v) :: alErase l k

theorem alGet_erase_self {α : Type} (l : List (String × α)) (k : String) :
    alGet (alErase l k) k = none := by
  induction l with
  | nil => rfl
  | cons p ps ih =>
    simp only [alErase, List.filter_cons] at ih ⊢
    cases hpk : (p.1 == k) with
    | false => simp [hpk, alGet, ih]
    | true => simp [hpk, ih]

theorem alGet_erase_ne {α : Type} (l : List (String × α)) (k k' : String) (h : k' ≠ k) :
    alGet (alErase l k) k' = alGet l k' := by
  induction l with
  | nil => rfl
  | cons p ps ih =>
    simp only [alErase, List.filter_cons] at ih ⊢
    cases hpk : (p.1 == k) with
    | false =>
      simp only [hpk, Bool.not_false, if_true, alGet]
      split
      · rfl
      · exact ih
    | true =>
      have hk : p.1 = k := by simpa using hpk
      have hne : (p.1 == k') = false := by
        rw [beq_eq_false_iff_ne]
        intro hc
        exact h (hc.symm.trans hk)
      simp [hpk, alGet, hne, ih]

@[simp]
theorem alGet_set_self {α : Type} (l : List (String × α)) (k : String) (v : α) :
    alGet (alSet l k v) k = some v := by
  simp [alSet, alGet]

theorem alGet_set_ne {α : Type} (l : List (String × α)) (k k' : String) (v : α) (h : k' ≠ k) :
    alGet (alSet l k v) k' = alGet l k' := by
  have hk : ¬ (k = k') := fun hc => h hc.symm
  simp [alSet, alGet, hk, alGet_erase_ne l k k' h]

theorem alHas_iff {α : Type} (l : List (String × α)) (k : String) :
    alHas l k = true ↔ ∃ v, alGet l k = some v := by
  cases h : alGet l k with
  | none => simp [alHas, h]
  | some v => simp [alHas, h]

/-! ## Encrypted custody store (`secure_bot_storage.py`, class `SecureBotStorage`)

The PBKDF2-derived Fernet key is modelled symbolically as the pair
`(password, salt)`: the key-derivation function is deterministic in those two
inputs, and the authenticated cipher accepts a ciphertext exactly when the
decryption key equals the encryption key, failing (returning `none`, the
counterpart of the caught `InvalidToken` exception) otherwise. -/

/-- Symbolic Fernet ciphertext: records the key the plaintext was encrypted
under.  Decryption recovers the plaintext only under the identical key. -/
structure Ciphertext where
  keyPw : String
  keySalt : String
  plaintext : String
deriving DecidableEq

/-- `_generate_encryption_key`: PBKDF2HMAC over password and salt, modelled as
the dependency of the derived key on exactly those two inputs. -/
def generate_encryption_key (password salt : String) : String × String :=
  (password, salt)

/-- `Fernet(key).encrypt(code)`. -/
def fernetEncrypt (key : String × String) (pt : String) : Ciphertext :=
  { keyPw := key.1, keySalt := key.2, plaintext := pt }

/-- `Fernet(key).decrypt(ct)`: authenticated decryption, `none` models the
exception raised on a wrong key or tampered ciphertext. -/
def fernetDecrypt (key : String × String) (ct : Ciphertext) : Option String :=
  if ct.keyPw = key.1 ∧ ct.keySalt = key.2 then some ct.plaintext else none

/-- Properties of a Python source string that the repository checks by
compiling and executing it (`compile`, `exec`, subclass search, `hasattr`).
They are opaque parameters of the model, since executing submitted Python is
outside a shallow embedding; every theorem quantifies over them. -/
structure BotSem where
  compilesOk : String → Bool
  loadableOk : String → Bool
  hasGetAction : String → Bool
  hasHandComplete : String → Bool
  hashCt : Ciphertext → String
deriving Inhabited

/-- `_load_bot_from_string`: executes the code and instantiates the
`PokerBotAPI` subclass found in it.  The resulting bot instance is represented
by the code string it was built from (the construction is deterministic in the
code), `none` when execution fails or no suitable subclass exists. -/
def load_bot_from_string (sem : BotSem) (code : String) (_bot_name : String) : Option String :=
  if sem.loadableOk code then some code else none

/-- `_validate_bot_code` (the near-identical copies in `secure_bot_storage.py`
and `bot_approval_system.py`): compile, load, then check the two mandatory
methods.  Returns `(valid, error message)`. -/
def validate_bot_code (sem : BotSem) (code bot_name : String) : Bool × String :=
  if !(sem.compilesOk code) then (false, "Syntax error")
  else
    match load_bot_from_string sem code bot_name with
    | none => (false, "No valid PokerBotAPI subclass found")
    | some _ =>
      if !(sem.hasGetAction code) then (false, "Bot missing get_action method")
      else if !(sem.hasHandComplete code) then (false, "Bot missing hand_complete method")
      else (true, "")

/-- Per-bot record in `metadata.json` (`metadata["bots"][name]`). -/
structure BotMeta where
  bot_id : String
  upload_date : Nat
  wins : Nat
  total_games : Nat
deriving DecidableEq

/-- On-disk state owned by `SecureBotStorage`: the metadata file plus the
`{bot_id}.enc` and `{bot_id}.salt` artifact files. -/
structure StorageState where
  bots : List (String × BotMeta)
  encFiles : List (String × Ciphertext)
  saltFiles : List (String × String)
deriving DecidableEq

/-- Result dictionary returned by the storage operations. -/
structure OpResult where
  success : Bool
  error : String := ""
  bot_id : String := ""
deriving DecidableEq

/-- `SecureBotStorage.upload_bot`: reject duplicate names, validate, encrypt
under the password-derived key with a fresh `salt`, write both artifact files
and the metadata entry with zeroed statistics. -/
def upload_bot (sem : BotSem) (s : StorageState) (bot_name bot_code owner_password : String)
    (salt : String) (now : Nat) : OpResult × StorageState :=
  if alHas s.bots bot_name then
    ({ success := false, error := "Bot name already exists" }, s)
  else
    let v := validate_bot_code sem bot_code bot_name
    if !v.1 then ({ success := false, error := v.2 }, s)
    else
      let key := generate_encryption_key owner_password salt
      let encrypted := fernetEncrypt key bot_code
      let bot_id := sem.hashCt encrypted
      let meta : BotMeta := { bot_id := bot_id, upload_date := now, wins := 0, total_games := 0 }
      ({ success := true, bot_id := bot_id },
       { bots := alSet s.bots bot_name meta,
         encFiles := alSet s.encFiles bot_id encrypted,
         saltFiles := alSet s.saltFiles bot_id salt })

/-- `SecureBotStorage.load_bot`: look up artifacts by name, derive the key
from the supplied password and the stored salt, attempt authenticated
decryption, instantiate.  Every failure yields `None`. -/
def load_bot (sem : BotSem) (s : StorageState) (bot_name password : String) : Option String :=
  match alGet s.bots bot_name with
  | none => none
  | some meta =>
    match alGet s.encFiles meta.bot_id, alGet s.saltFiles meta.bot_id with
    | some encrypted, some salt =>
      let key := generate_encryption_key password salt
      match fernetDecrypt key encrypted with
      | none => none
      | some code => load_bot_from_string sem code bot_name
    | some _, none => none
    | none, some _ => none
    | none, none => none

/-- `SecureBotStorage.update_bot`: prove ownership by loading with the
password, validate the new code, delete the old artifact pair, drop and
re-create the metadata entry via `upload_bot`, then restore the previous
statistics. -/
def update_bot (sem : BotSem) (s : StorageState) (bot_name new_code owner_password : String)
    (salt : String) (now : Nat) : OpResult × StorageState :=
  match alGet s.bots bot_name with
  | none => ({ success := false, error := "Bot not found" }, s)
  | some meta =>
    match load_bot sem s bot_name owner_password with
    | none => ({ success := false, error := "Invalid password" }, s)
    | some _ =>
      let v := validate_bot_code sem new_code bot_name
      if !v.1 then ({ success := false, error := v.2 }, s)
      else
        let s1 : StorageState :=
          { s with encFiles := alErase s.encFiles meta.bot_id,
                   saltFiles := alErase s.saltFiles meta.bot_id }
        let s2 : StorageState := { s1 with bots := alErase s1.bots bot_name }
        let r := upload_bot sem s2 bot_name new_code owner_password salt now
        if r.1.success then
          match alGet r.2.bots bot_name with
          | some m =>
            let m2 : BotMeta := { m with wins := meta.wins, total_games := meta.total_games }
            (r.1, { r.2 with bots := alSet r.2.bots bot_name m2 })
          | none => (r.1, r.2)
        else (r.1, r.2)

/-- One entry of the list returned by `SecureBotStorage.list_bots`.  The
`win_rate` float is modelled as the exact rational it computes. -/
structure BotView where
  name : String
  bot_id : String
  wins : Nat
  total_games : Nat
  win_rate : Rat
deriving DecidableEq

/-- View of one metadata entry as reported by `list_bots`. -/
def mkBotView (name : String) (m : BotMeta) : BotView :=
  { name := name, bot_id := m.bot_id, wins := m.wins, total_games := m.total_games,
    win_rate := if m.total_games > 0 then (m.wins : Rat) / (m.total_games : Rat) * 100 else 0 }

/-- `SecureBotStorage.list_bots`: metadata only, never touches ciphertext. -/
def list_bots (s : StorageState) : List BotView :=
  s.bots.map (fun p => mkBotView p.1 p.2)

/-! ## Review workflow (`bot_approval_system.py`, class `BotReviewSystem`)

Submission identifiers (derived in Python from a hash over name, email and
the current time) and clock readings are explicit parameters.  The plaintext
code files `{id}.py` and password files `{id}.pwd` of the review directory are
modelled as association lists keyed by submission id; the base64 encoding of
the stored password is reversible and therefore modelled as the identity. -/

/-- The `BotStatus` enum. -/
inductive BotStatus where
  | pending_review
  | approved
  | rejected
  | revision_requested
deriving DecidableEq

/-- One entry of a submission record's `review_notes` list. -/
structure ReviewNote where
  date : Nat
  action : String
  notes : String
deriving DecidableEq

/-- One record of `submissions.json`'s `"submissions"` table.  The
`code_file` path it stores is determined by the submission id and is therefore
represented by keying the code-file map with the id. -/
structure Submission where
  bot_name : String
  submitter_email : String
  submission_date : Nat
  status : BotStatus
  review_notes : List ReviewNote
  revision_count : Nat
  approval_date : Option Nat := none
  admin_notes : String := ""
  resubmission_date : Option Nat := none
deriving DecidableEq

/-- One record of `submissions.json`'s `"approved_bots"` table. -/
structure ApprovedInfo where
  submission_id : String
  submitter_email : String
  approval_date : Nat
deriving DecidableEq

/-- On-disk state owned by `BotReviewSystem`: the two tables of
`submissions.json` plus the plaintext code and password files. -/
structure ReviewState where
  submissions : List (String × Submission)
  approved_bots : List (String × ApprovedInfo)
  codeFiles : List (String × String)
  pwdFiles : List (String × String)
deriving DecidableEq

/-- Result dictionary of the review operations. -/
structure ReviewResult where
  success : Bool
  error : String := ""
  submission_id : String := ""
deriving DecidableEq

/-- The status test `sub["status"] in [PENDING_REVIEW.value, REVISION_REQUESTED.value]`. -/
def isActive (st : BotStatus) : Bool :=
  st == BotStatus.pending_review || st == BotStatus.revision_requested

/-- The loop condition of `submit_bot`'s duplicate-submission scan. -/
def activeConflict (bot_name submitter_email : String) (p : String × Submission) : Bool :=
  p.2.bot_name == bot_name && p.2.submitter_email == submitter_email && isActive p.2.status

/-- `BotReviewSystem.submit_bot`: reject names of approved bots, reject a
second active submission for the same name and submitter, otherwise persist
the code and password files and create the record in `PendingReview`. -/
def submit_bot (rs : ReviewState) (bot_name bot_code submitter_email submitter_password : String)
    (submission_id : String) (now : Nat) : ReviewResult × ReviewState :=
  if alHas rs.approved_bots bot_name then
    ({ success := false, error := "Bot name already exists" }, rs)
  else
    match rs.submissions.find? (activeConflict bot_name submitter_email) with
    | some p =>
      ({ success := false,
         error := "You already have a pending submission for " ++ bot_name,
         submission_id := p.1 }, rs)
    | none =>
      let sub : Submission :=
        { bot_name := bot_name, submitter_email := submitter_email, submission_date := now,
          status := BotStatus.pending_review, review_notes := [], revision_count := 0 }
      ({ success := true, submission_id := submission_id },
       { rs with
         codeFiles := alSet rs.codeFiles submission_id bot_code,
         pwdFiles := alSet rs.pwdFiles submission_id submitter_password,
         submissions := alSet rs.submissions submission_id sub })

/-- Output of `approve_bot`: the result dictionary, both stores after the
call, and the notification side effects fired after the lock is released
(modelled as the list of recipient emails). -/
structure ApproveOut where
  result : ReviewResult
  review : ReviewState
  storage : StorageState
  emails_sent : List String
deriving DecidableEq

/-- `BotReviewSystem.approve_bot`: load the reviewed code, re-validate it
structurally, decode the stored password, hand both to the custody store's
`upload_bot`; only on upload success mark the record `Approved`, record the
name mapping, delete the plaintext artifacts and notify the submitter.
Missing files raise exceptions that the surrounding handler turns into a
failure result. -/
def approve_bot (sem : BotSem) (rs : ReviewState) (ss : StorageState)
    (submission_id admin_notes : String) (salt : String) (now : Nat) : ApproveOut :=
  match alGet rs.submissions submission_id with
  | none => ⟨{ success := false, error := "Submission not found" }, rs, ss, []⟩
  | some submission =>
    match alGet rs.codeFiles submission_id with
    | none => ⟨{ success := false, error := "Approval failed: code file missing" }, rs, ss, []⟩
    | some bot_code =>
      let v := validate_bot_code sem bot_code submission.bot_name
      if !v.1 then
        ⟨{ success := false, error := "Bot validation failed: " ++ v.2 }, rs, ss, []⟩
      else
        match alGet rs.pwdFiles submission_id with
        | none => ⟨{ success := false, error := "Approval failed: password file missing" }, rs, ss, []⟩
        | some password =>
          let r := upload_bot sem ss submission.bot_name bot_code password salt now
          if !r.1.success then
            ⟨{ success := r.1.success, error := r.1.error }, rs, r.2, []⟩
          else
            let submission2 : Submission :=
              { submission with
                status := BotStatus.approved, approval_date := some now,
                admin_notes := admin_notes,
                review_notes := submission.review_notes ++ [⟨now, "approved", admin_notes⟩] }
            let info : ApprovedInfo :=
              ⟨submission_id, submission.submitter_email, now⟩
            ⟨{ success := true },
             { submissions := alSet rs.submissions submission_id submission2,
               approved_bots := alSet rs.approved_bots submission.bot_name info,
               codeFiles := alErase rs.codeFiles submission_id,
               pwdFiles := alErase rs.pwdFiles submission_id },
             r.2,
             [submission.submitter_email]⟩

/-- `BotReviewSystem.resubmit_bot`: only the original submitter may resubmit,
and only from `RevisionRequested`; on success overwrite the code file, reset
the status to `PendingReview` and append a review note. -/
def resubmit_bot (rs : ReviewState) (submission_id new_code submitter_email : String)
    (now : Nat) : ReviewResult × ReviewState :=
  match alGet rs.submissions submission_id with
  | none => ({ success := false, error := "Submission not found" }, rs)
  | some submission =>
    if submission.submitter_email ≠ submitter_email then
      ({ success := false, error := "Unauthorized" }, rs)
    else if submission.status ≠ BotStatus.revision_requested then
      ({ success := false, error := "This submission is not awaiting revision" }, rs)
    else
      let submission2 : Submission :=
        { submission with
          status := BotStatus.pending_review, resubmission_date := some now,
          review_notes := submission.review_notes ++ [⟨now, "resubmitted", "Code updated by submitter"⟩] }
      ({ success := true },
       { rs with
         codeFiles := alSet rs.codeFiles submission_id new_code,
         submissions := alSet rs.submissions submission_id submission2 })

/-! ## Safety analyzer (`BotReviewSystem._run_automated_checks`)

A pure function over the source text: substring scan against a fixed ordered
catalogue of dangerous patterns, followed by structural checks that override
the severity, followed by a low-severity line-count flag. -/

/-- Whether `needle` is a prefix of `hay` (over character lists). -/
def listStartsWith : List Char → List Char → Bool
  | _, [] => true
  | [], _ :: _ => false
  | a :: as, b :: bs => a == b && listStartsWith as bs

/-- Whether `needle` occurs contiguously inside `hay`. -/
def listOccurs : List Char → List Char → Bool
  | [], needle => needle.isEmpty
  | a :: rest, needle => listStartsWith (a :: rest) needle || listOccurs rest needle

/-- Python's substring test `pattern in code`. -/
def containsSub (code pat : String) : Bool :=
  listOccurs code.toList pat.toList

/-- One flag appended by the analyzer. -/
structure Flag where
  pattern : String
  description : String
  severity : String
deriving DecidableEq

/-- The `dangerous_patterns` dictionary, in its insertion order. -/
def dangerous_patterns : List (String × String) :=
  [("os.system", "Command execution (os.system)"),
   ("subprocess", "Subprocess execution"),
   ("eval(", "Dynamic code evaluation (eval)"),
   ("exec(", "Dynamic code execution (exec)"),
   ("__import__", "Dynamic imports"),
   ("open(", "File operations"),
   ("requests.", "Network requests"),
   ("urllib", "Network requests"),
   ("socket", "Network sockets"),
   ("pickle", "Pickle serialization (potential RCE)"),
   ("os.remove", "File deletion"),
   ("os.rmdir", "Directory deletion"),
   ("shutil", "File system operations"),
   ("sys.exit", "Program termination"),
   ("__builtins__", "Built-ins manipulation"),
   ("globals()", "Global scope access"),
   ("locals()", "Local scope access"),
   ("compile(", "Code compilation")]

/-- The patterns classified `high` by the analyzer. -/
def highPatterns : List String :=
  ["os.system", "subprocess", "eval(", "exec("]

/-- The body of the pattern-matching loop: one iteration per catalogue entry,
threading the running severity and flag list. -/
def scanPatterns (code : String) :
    List (String × String) → String → List Flag → String × List Flag
  | [], severity, flags => (severity, flags)
  | p :: ps, severity, flags =>
    if containsSub code p.1 then
      let flag_severity := if highPatterns.contains p.1 then "high" else "medium"
      let severity2 :=
        if flag_severity = "high" then "dangerous"
        else if severity ≠ "dangerous" then "suspicious"
        else severity
      scanPatterns code ps severity2 (flags ++ [⟨p.1, p.2, flag_severity⟩])
    else
      scanPatterns code ps severity flags

/-- Analyzer result dictionary. -/
structure SafetyCheck where
  severity : String
  flags : List Flag
  total_flags : Nat
  is_safe : Bool
deriving DecidableEq

/-- `BotReviewSystem._run_automated_checks`. -/
def run_automated_checks (code : String) : SafetyCheck :=
  let r0 := scanPatterns code dangerous_patterns "safe" []
  let r1 :=
    if !(containsSub code "PokerBotAPI") then
      ("invalid", r0.2 ++ [⟨"Missing PokerBotAPI", "Bot does not inherit from PokerBotAPI", "high"⟩])
    else r0
  let r2 :=
    if !(containsSub code "def get_action") then
      ("invalid", r1.2 ++ [⟨"Missing get_action", "Required method get_action not found", "high"⟩])
    else r1
  let r3 :=
    if !(containsSub code "def hand_complete") then
      ("invalid", r2.2 ++ [⟨"Missing hand_complete", "Required method hand_complete not found", "high"⟩])
    else r2
  let lineCount := (code.splitOn "\n").length
  let r4 :=
    if lineCount > 500 then
      (r3.1, r3.2 ++ [⟨"Large file", "Bot has " ++ toString lineCount ++ " lines (unusually large)", "low"⟩])
    else r3
  { severity := r4.1, flags := r4.2, total_flags := r4.2.length, is_safe := r4.1 == "safe" }

/-- The structural requirement checked by the analyzer: base interface plus
the two mandatory entry points. -/
def structureOk (code : String) : Bool :=
  containsSub code "PokerBotAPI" && containsSub code "def get_action" &&
    containsSub code "def hand_complete"

/-- Whether some high-severity (process/command or dynamic execution) pattern
occurs in the code. -/
def hitsHighPattern (code : String) : Bool :=
  dangerous_patterns.any (fun p => containsSub code p.1 && highPatterns.contains p.1)

/-- Whether any catalogue pattern at all occurs in the code. -/
def hitsAnyPattern (code : String) : Bool :=
  dangerous_patterns.any (fun p => containsSub code p.1)

/-! ## Admin identity and access guard (`secure_admin_auth.py`, class `AdminAuthSystem`)

Clock readings (`time.time()`, `datetime.now()`) are an explicit `now : Nat`
in seconds.  The salted iterated password hash is modelled symbolically: the
stored hash verifies exactly the password it was created from, so a stored
hash is represented by that password and `_verify_password` by equality. -/

/-- One account record of `admin_auth.json`'s `"admins"` table. -/
structure AdminAccount where
  password_hash : String
  created_at : Nat
  last_login : Option Nat
  is_active : Bool
deriving DecidableEq

/-- One entry of the append-only audit log. -/
structure AuditEvent where
  timestamp : Nat
  event : String
  username : String
  ip : String
  details : String
deriving DecidableEq

/-- The combined persistent (`admin_auth.json`) and process-scoped
(rate-limit, failed-attempt and lockout maps) state of `AdminAuthSystem`. -/
structure AuthState where
  admins : List (String × AdminAccount)
  audit_log : List AuditEvent
  rate_limit_storage : List (String × List Nat)
  failed_attempts : List (String × Nat)
  lockout_until : List (String × Nat)
deriving DecidableEq

/-- `AdminAuthSystem._verify_password` under the symbolic hash model. -/
def verify_password (password stored_hash : String) : Bool :=
  password == stored_hash

/-- The last `n` elements of a list: Python's `l[-n:]`. -/
def lastN {α : Type} (n : Nat) (l : List α) : List α :=
  l.drop (l.length - n)

/-- `AdminAuthSystem._log_audit_event`: append and keep the last 1000. -/
def log_audit_event (s : AuthState) (event_type username ip details : String)
    (now : Nat) : AuthState :=
  { s with audit_log := lastN 1000 (s.audit_log ++ [⟨now, event_type, username, ip, details⟩]) }

/-- `AdminAuthSystem.check_rate_limit`: prune the origin's window to the last
`window_seconds`, refuse at `max_requests`, otherwise record the request. -/
def check_rate_limit (s : AuthState) (ip : String) (max_requests window_seconds : Nat)
    (now : Nat) : Bool × AuthState :=
  let ts := (alGet s.rate_limit_storage ip).getD []
  let recent := ts.filter (fun t => now - t < window_seconds)
  if recent.length ≥ max_requests then
    (false, { s with rate_limit_storage := alSet s.rate_limit_storage ip recent })
  else
    (true, { s with rate_limit_storage := alSet s.rate_limit_storage ip (recent ++ [now]) })

/-- `AdminAuthSystem.is_locked_out`: active lockout reports `true`; an expired
lockout is removed and the origin's failure counter zeroed. -/
def is_locked_out (s : AuthState) (ip : String) (now : Nat) : Bool × AuthState :=
  match alGet s.lockout_until ip with
  | some t =>
    if now < t then (true, s)
    else
      (false, { s with lockout_until := alErase s.lockout_until ip,
                       failed_attempts := alSet s.failed_attempts ip 0 })
  | none => (false, s)

/-- `AdminAuthSystem.record_failed_attempt`: bump the counter and, at 5, set a
lockout expiring 15 minutes later. -/
def record_failed_attempt (s : AuthState) (ip : String) (now : Nat) : AuthState :=
  let n := (alGet s.failed_attempts ip).getD 0 + 1
  let s2 := { s with failed_attempts := alSet s.failed_attempts ip n }
  if n ≥ 5 then { s2 with lockout_until := alSet s2.lockout_until ip (now + 15 * 60) }
  else s2

/-- `AdminAuthSystem.reset_failed_attempts`. -/
def reset_failed_attempts (s : AuthState) (ip : String) : AuthState :=
  { s with failed_attempts := alErase s.failed_attempts ip }

/-- Result dictionary of `authenticate`. -/
structure AuthResult where
  success : Bool
  user : Option String
  error : Option String
deriving DecidableEq

/-- `AdminAuthSystem.authenticate`, in the order the Python executes: rate
limit, lockout, user lookup, active flag, password verification; every
outcome appends an audit event. -/
def authenticate (s : AuthState) (username password ip : String) (now : Nat) :
    AuthResult × AuthState :=
  let rl := check_rate_limit s ip 5 60 now
  if !rl.1 then
    let s2 := log_audit_event rl.2 "RATE_LIMIT" username ip "Too many requests" now
    ({ success := false, user := none,
       error := some "Too many requests. Please try again in 1 minute." }, s2)
  else
    let lk := is_locked_out rl.2 ip now
    if lk.1 then
      let remaining := ((alGet lk.2.lockout_until ip).getD 0) - now
      let s2 := log_audit_event lk.2 "LOCKED_OUT" username ip
        ("Account locked for " ++ toString remaining ++ "s") now
      ({ success := false, user := none,
         error := some ("Too many failed attempts. Try again in " ++
           toString (remaining / 60) ++ " minutes.") }, s2)
    else
      match alGet lk.2.admins username with
      | none =>
        let s2 := record_failed_attempt lk.2 ip now
        let s3 := log_audit_event s2 "LOGIN_FAIL" username ip "Invalid username" now
        ({ success := false, user := none, error := some "Invalid credentials" }, s3)
      | some admin =>
        if !admin.is_active then
          let s2 := log_audit_event lk.2 "LOGIN_FAIL" username ip "Account disabled" now
          ({ success := false, user := none, error := some "Account is disabled" }, s2)
        else if !(verify_password password admin.password_hash) then
          let s2 := record_failed_attempt lk.2 ip now
          let s3 := log_audit_event s2 "LOGIN_FAIL" username ip "Invalid password" now
          ({ success := false, user := none, error := some "Invalid credentials" }, s3)
        else
          let s2 := reset_failed_attempts lk.2 ip
          let s3 := { s2 with admins := alSet s2.admins username { admin with last_login := some now } }
          let s4 := log_audit_event s3 "LOGIN_SUCCESS" username ip "Successful login" now
          ({ success := true, user := some username, error := none }, s4)

/-! ## Persistence-write traces (claim C5)

The three persistence routines are embedded by the sequence of file-system
operations they issue: an in-place whole-file write, or an atomic
rename/replace.  `_save_submissions` stages the JSON in a `.tmp` file and
then `os.replace`s (or `os.rename`s) it over the target;
`SecureBotStorage._save_metadata` and `AdminAuthSystem._save_auth_data` open
the target for writing directly. -/

/-- A primitive file-system mutation. -/
inductive FileOp where
  | writeFile (path : String) (content : String)
  | replaceFile (src : String) (dst : String)
deriving DecidableEq

/-- File operations issued by `BotReviewSystem._save_submissions`. -/
def save_submissions_ops (submissions_file content : String) : List FileOp :=
  [FileOp.writeFile (submissions_file ++ ".tmp") content,
   FileOp.replaceFile (submissions_file ++ ".tmp") submissions_file]

/-- File operations issued by `SecureBotStorage._save_metadata`. -/
def save_metadata_ops (metadata_file content : String) : List FileOp :=
  [FileOp.writeFile metadata_file content]

/-- File operations issued by `AdminAuthSystem._save_auth_data`. -/
def save_auth_data_ops (auth_file content : String) : List FileOp :=
  [FileOp.writeFile auth_file content]

/-- A trace updates `target` atomically when the target path is never opened
for in-place writing: its content may only change through a rename of a fully
written staging file, so a reader never observes a half-written record. -/
def atomicFor (target : String) (ops : List FileOp) : Bool :=
  ops.all (fun op =>
    match op with
    | FileOp.writeFile p _ => p != target
    | FileOp.replaceFile _ _ => true)

/-! ## Shared lemmas -/

theorem validate_true_iff (sem : BotSem) (code bot_name : String) :
    (validate_bot_code sem code bot_name).1 = true ↔
      sem.compilesOk code = true ∧ sem.loadableOk code = true ∧
      sem.hasGetAction code = true ∧ sem.hasHandComplete code = true := by
  unfold validate_bot_code load_bot_from_string
  cases h1 : sem.compilesOk code <;> cases h2 : sem.loadableOk code <;>
    cases h3 : sem.hasGetAction code <;> cases h4 : sem.hasHandComplete code <;> simp

theorem upload_bot_fail_state (sem : BotSem) (s : StorageState)
    (bot_name bot_code owner_password salt : String) (now : Nat)
    (h : (upload_bot sem s bot_name bot_code owner_password salt now).1.success = false) :
    (upload_bot sem s bot_name bot_code owner_password salt now).2 = s := by
  unfold upload_bot at h ⊢
  cases hhas : alHas s.bots bot_name with
  | true => simp [hhas]
  | false =>
    cases hv : (validate_bot_code sem bot_code bot_name).1 with
    | true => simp [hhas, hv] at h
    | false => simp [hhas, hv]

theorem upload_bot_existing_fails (sem : BotSem) (s : StorageState)
    (bot_name bot_code owner_password salt : String) (now : Nat)
    (h : alHas s.bots bot_name = true) :
    (upload_bot sem s bot_name bot_code owner_password salt now).1.success = false := by
  simp [upload_bot, h]

/-- Claim C1: after a successful `store(name, code, pw)` (`upload_bot`), a
`load(name, pw)` (`load_bot`) returns the bot instance built from exactly the
original code, while `load(name, pw2)` for any other password returns `None`
rather than raising or yielding wrongly decoded plaintext. -/
theorem c1_store_load_roundtrip (sem : BotSem) (s : StorageState)
    (name code pw salt : String) (now : Nat)
    (hsucc : (upload_bot sem s name code pw salt now).1.success = true) :
    load_bot sem (upload_bot sem s name code pw salt now).2 name pw = some code ∧
    ∀ pw2, pw2 ≠ pw →
      load_bot sem (upload_bot sem s name code pw salt now).2 name pw2 = none := by
  unfold upload_bot at hsucc ⊢
  cases hhas : alHas s.bots name with
  | true => simp [hhas] at hsucc
  | false =>
    cases hv : (validate_bot_code sem code name).1 with
    | false => simp [hhas, hv] at hsucc
    | true =>
      have hload : sem.loadableOk code = true :=
        ((validate_true_iff sem code name).mp hv).2.1
      simp only [hhas, hv, Bool.false_eq_true, if_false, Bool.not_true, if_true]
      constructor
      · simp [hhas, hv, load_bot, alGet_set_self, fernetDecrypt, fernetEncrypt,
          generate_encryption_key, load_bot_from_string, hload]
      · intro pw2 hne
        have hne2 : ¬ (pw = pw2) := fun hc => hne hc.symm
        simp [hhas, hv, load_bot, alGet_set_self, fernetDecrypt, fernetEncrypt,
          generate_encryption_key, load_bot_from_string, hne2]

/-- Concrete bot semantics for witnesses: every code string compiles, loads
and has both entry points; the content hash is the plaintext itself. -/
def semAll : BotSem :=
  { compilesOk := fun _ => true, loadableOk := fun _ => true,
    hasGetAction := fun _ => true, hasHandComplete := fun _ => true,
    hashCt := fun ct => ct.plaintext }

/-- Empty custody store. -/
def stEmpty : StorageState := ⟨[], [], []⟩

theorem c1_store_load_roundtrip_witness :
    load_bot semAll (upload_bot semAll stEmpty "alpha" "codeA" "pw" "salt" 0).2 "alpha" "pw" =
      some "codeA" ∧
    load_bot semAll (upload_bot semAll stEmpty "alpha" "codeA" "pw" "salt" 0).2 "alpha" "qq" =
      none := by
  have h := c1_store_load_roundtrip semAll stEmpty "alpha" "codeA" "pw" "salt" 0 (by decide)
  exact ⟨h.1, h.2 "qq" (by decide)⟩

/-- Claim C2: when `approve_bot` fails — in particular because the custody
store upload or the structural validation failed — the review store is left
exactly as it was (record still `PendingReview`, plaintext code and password
files still present, no name mapping), the custody store is unchanged, and no
notification is sent. -/
theorem c2_approve_all_or_nothing (sem : BotSem) (rs : ReviewState) (ss : StorageState)
    (submission_id admin_notes salt : String) (now : Nat) (sub : Submission)
    (hsub : alGet rs.submissions submission_id = some sub)
    (_hstat : sub.status = BotStatus.pending_review)
    (hfail : (approve_bot sem rs ss submission_id admin_notes salt now).result.success = false) :
    (approve_bot sem rs ss submission_id admin_notes salt now).review = rs ∧
    (approve_bot sem rs ss submission_id admin_notes salt now).storage = ss ∧
    (approve_bot sem rs ss submission_id admin_notes salt now).emails_sent = [] := by
  cases hcode : alGet rs.codeFiles submission_id with
  | none => simp [approve_bot, hsub, hcode]
  | some bot_code =>
    cases hv : (validate_bot_code sem bot_code sub.bot_name).1 with
    | false => simp [approve_bot, hsub, hcode, hv]
    | true =>
      cases hpwd : alGet rs.pwdFiles submission_id with
      | none => simp [approve_bot, hsub, hcode, hv, hpwd]
      | some password =>
        cases hup : (upload_bot sem ss sub.bot_name bot_code password salt now).1.success with
        | false =>
          have hst := upload_bot_fail_state sem ss sub.bot_name bot_code password salt now hup
          simp [approve_bot, hsub, hcode, hv, hpwd, hup, hst]
        | true =>
          simp [approve_bot, hsub, hcode, hv, hpwd, hup] at hfail

/-- A pending submission for bot name `nm`, used by witnesses. -/
def subPending : Submission :=
  { bot_name := "nm", submitter_email := "a@x.com", submission_date := 0,
    status := BotStatus.pending_review, review_notes := [], revision_count := 0 }

/-- Review store holding `subPending` with its code and password files. -/
def rsPending : ReviewState :=
  { submissions := [("id1", subPending)], approved_bots := [],
    codeFiles := [("id1", "codeA")], pwdFiles := [("id1", "pwA")] }

/-- Custody store already holding a bot under the name `nm`. -/
def ssTaken : StorageState :=
  { bots := [("nm", { bot_id := "b0", upload_date := 0, wins := 0, total_games := 0 })],
    encFiles := [], saltFiles := [] }

theorem c2_approve_all_or_nothing_witness :
    (approve_bot semAll rsPending ssTaken "id1" "" "salt" 1).review = rsPending ∧
    (approve_bot semAll rsPending ssTaken "id1" "" "salt" 1).storage = ssTaken ∧
    (approve_bot semAll rsPending ssTaken "id1" "" "salt" 1).emails_sent = [] :=
  c2_approve_all_or_nothing semAll rsPending ssTaken "id1" "" "salt" 1 subPending
    (by decide) (by decide) (by decide)

/-- Claim C3: once a name is approved — it appears in the review store's
`approved_bots` table and in the custody metadata — no later `submit_bot`
with that name succeeds (and it changes nothing), and no later `approve_bot`
of any submission bearing that name succeeds. -/
theorem c3_approved_name_unique (rs : ReviewState) (ss : StorageState) (name : String)
    (happ : alHas rs.approved_bots name = true)
    (hmeta : alHas ss.bots name = true) :
    (∀ bot_code email pw sid now,
       (submit_bot rs name bot_code email pw sid now).1.success = false ∧
       (submit_bot rs name bot_code email pw sid now).2 = rs) ∧
    (∀ sem sid notes salt now sub,
       alGet rs.submissions sid = some sub → sub.bot_name = name →
       (approve_bot sem rs ss sid notes salt now).result.success = false) := by
  constructor
  · intro bot_code email pw sid now
    simp [submit_bot, happ]
  · intro sem sid notes salt now sub hsub hname
    cases hcode : alGet rs.codeFiles sid with
    | none => simp [approve_bot, hsub, hcode]
    | some bot_code =>
      cases hv : (validate_bot_code sem bot_code sub.bot_name).1 with
      | false => simp [approve_bot, hsub, hcode, hv]
      | true =>
        cases hpwd : alGet rs.pwdFiles sid with
        | none => simp [approve_bot, hsub, hcode, hv, hpwd]
        | some password =>
          have hup : (upload_bot sem ss sub.bot_name bot_code password salt now).1.success
              = false := by
            apply upload_bot_existing_fails
            rw [hname]
            exact hmeta
          simp [approve_bot, hsub, hcode, hv, hpwd, hup]

/-- Review store in which the name `nm` is already approved. -/
def rsApproved : ReviewState :=
  { submissions := [("id1", subPending)], approved_bots := [("nm", ⟨"id0", "b@x.com", 0⟩)],
    codeFiles := [("id1", "codeA")], pwdFiles := [("id1", "pwA")] }

theorem c3_approved_name_unique_witness :
    ((submit_bot rsApproved "nm" "codeB" "c@x.com" "pw2" "id2" 5).1.success = false ∧
     (submit_bot rsApproved "nm" "codeB" "c@x.com" "pw2" "id2" 5).2 = rsApproved) ∧
    (approve_bot semAll rsApproved ssTaken "id1" "" "salt" 5).result.success = false := by
  have h := c3_approved_name_unique rsApproved ssTaken "nm" (by decide) (by decide)
  exact ⟨h.1 "codeB" "c@x.com" "pw2" "id2" 5,
         h.2 semAll "id1" "" "salt" 5 subPending (by decide) (by decide)⟩

/-- Claim C6: for an existing submission, `resubmit_bot` succeeds exactly when
the supplied email matches the original submitter and the current status is
`RevisionRequested`; on success the code file is overwritten and the status
reset to `PendingReview`; on any failure the review store is unchanged. -/
theorem c6_resubmit_iff (rs : ReviewState) (submission_id new_code submitter_email : String)
    (now : Nat) (sub : Submission)
    (hsub : alGet rs.submissions submission_id = some sub) :
    ((resubmit_bot rs submission_id new_code submitter_email now).1.success = true ↔
      (sub.submitter_email = submitter_email ∧ sub.status = BotStatus.revision_requested)) ∧
    ((resubmit_bot rs submission_id new_code submitter_email now).1.success = false →
      (resubmit_bot rs submission_id new_code submitter_email now).2 = rs) ∧
    ((resubmit_bot rs submission_id new_code submitter_email now).1.success = true →
      alGet (resubmit_bot rs submission_id new_code submitter_email now).2.codeFiles
          submission_id = some new_code ∧
      ∃ sub2, alGet (resubmit_bot rs submission_id new_code submitter_email now).2.submissions
          submission_id = some sub2 ∧ sub2.status = BotStatus.pending_review) := by
  by_cases he : sub.submitter_email = submitter_email
  · by_cases hst : sub.status = BotStatus.revision_requested
    · refine ⟨by simp [resubmit_bot, hsub, he, hst], ?_, ?_⟩
      · intro hf
        simp [resubmit_bot, hsub, he, hst] at hf
      · intro _
        refine ⟨by simp [resubmit_bot, hsub, he, hst], ?_⟩
        have hrec : alGet (resubmit_bot rs submission_id new_code
            submitter_email now).2.submissions submission_id =
            some { sub with
                   status := BotStatus.pending_review,
                   resubmission_date := some now,
                   review_notes := sub.review_notes ++
                     [⟨now, "resubmitted", "Code updated by submitter"⟩] } := by
          simp [resubmit_bot, hsub, he, hst]
        exact ⟨_, hrec, rfl⟩
    · refine ⟨by simp [resubmit_bot, hsub, he, hst], ?_, ?_⟩
      · intro _
        simp [resubmit_bot, hsub, he, hst]
      · intro ht
        simp [resubmit_bot, hsub, he, hst] at ht
  · refine ⟨by simp [resubmit_bot, hsub, he], ?_, ?_⟩
    · intro _
      simp [resubmit_bot, hsub, he]
    · intro ht
      simp [resubmit_bot, hsub, he] at ht

/-- A submission awaiting revision, used by witnesses. -/
def subRevision : Submission :=
  { bot_name := "nm", submitter_email := "a@x.com", submission_date := 0,
    status := BotStatus.revision_requested, review_notes := [], revision_count := 1 }

/-- Review store holding `subRevision`. -/
def rsRevision : ReviewState :=
  { submissions := [("idR", subRevision)], approved_bots := [],
    codeFiles := [("idR", "codeOld")], pwdFiles := [("idR", "pwA")] }

theorem c6_resubmit_iff_witness :
    (resubmit_bot rsRevision "idR" "codeNew" "a@x.com" 7).1.success = true ∧
    (resubmit_bot rsRevision "idR" "codeNew" "b@x.com" 7).1.success = false := by
  have h1 := c6_resubmit_iff rsRevision "idR" "codeNew" "a@x.com" 7 subRevision (by decide)
  have h2 := c6_resubmit_iff rsRevision "idR" "codeNew" "b@x.com" 7 subRevision (by decide)
  refine ⟨h1.1.mpr ⟨rfl, rfl⟩, ?_⟩
  cases hs : (resubmit_bot rsRevision "idR" "codeNew" "b@x.com" 7).1.success with
  | false => rfl
  | true =>
    have := h2.1.mp hs
    exact absurd this.1 (by decide)

/-- Claim C7: a `submit_bot` call while the same submitter already has an
active (`PendingReview` or `RevisionRequested`) submission under the same
name fails with a conflict error and creates no record: the review store is
returned unchanged. -/
theorem c7_submit_conflict (rs : ReviewState)
    (bot_name bot_code submitter_email submitter_password submission_id : String) (now : Nat)
    (hactive : rs.submissions.any (activeConflict bot_name submitter_email) = true) :
    (submit_bot rs bot_name bot_code submitter_email submitter_password
        submission_id now).1.success = false ∧
    (submit_bot rs bot_name bot_code submitter_email submitter_password
        submission_id now).2 = rs ∧
    ((submit_bot rs bot_name bot_code submitter_email submitter_password
        submission_id now).1.error = "Bot name already exists" ∨
     (submit_bot rs bot_name bot_code submitter_email submitter_password
        submission_id now).1.error = "You already have a pending submission for " ++ bot_name) := by
  cases happ : alHas rs.approved_bots bot_name with
  | true => simp [submit_bot, happ]
  | false =>
    cases hfind : rs.submissions.find? (activeConflict bot_name submitter_email) with
    | none =>
      rw [List.find?_eq_none] at hfind
      rw [List.any_eq_true] at hactive
      obtain ⟨x, hx, hpx⟩ := hactive
      exact absurd hpx (by simpa using hfind x hx)
    | some p => simp [submit_bot, happ, hfind]

theorem c7_submit_conflict_witness :
    (submit_bot rsPending "nm" "codeB" "a@x.com" "pw2" "id9" 9).1.success = false ∧
    (submit_bot rsPending "nm" "codeB" "a@x.com" "pw2" "id9" 9).2 = rsPending ∧
    ((submit_bot rsPending "nm" "codeB" "a@x.com" "pw2" "id9" 9).1.error =
        "Bot name already exists" ∨
     (submit_bot rsPending "nm" "codeB" "a@x.com" "pw2" "id9" 9).1.error =
        "You already have a pending submission for " ++ "nm") :=
  c7_submit_conflict rsPending "nm" "codeB" "a@x.com" "pw2" "id9" 9 (by decide)

theorem scanPatterns_no_match (code : String) (ps : List (String × String))
    (severity : String) (flags : List Flag)
    (h : ∀ p ∈ ps, containsSub code p.1 = false) :
    (scanPatterns code ps severity flags).1 = severity := by
  induction ps generalizing severity flags with
  | nil => rfl
  | cons p ps ih =>
    have hp : containsSub code p.1 = false := h p (by simp)
    simpa [scanPatterns, hp] using ih severity flags (fun q hq => h q (by simp [hq]))

theorem scanPatterns_dangerous_iff (code : String) (ps : List (String × String))
    (severity : String) (flags : List Flag) :
    (scanPatterns code ps severity flags).1 = "dangerous" ↔
      severity = "dangerous" ∨
        ∃ p ∈ ps, containsSub code p.1 = true ∧ highPatterns.contains p.1 = true := by
  induction ps generalizing severity flags with
  | nil => simp [scanPatterns]
  | cons p ps ih =>
    cases hp : containsSub code p.1 with
    | false => simp [scanPatterns, hp, ih]
    | true =>
      cases hh : highPatterns.contains p.1 with
      | true =>
        have hmem : p.1 ∈ highPatterns := by simpa using hh
        simp [scanPatterns, hp, hh, ih, hmem]
      | false =>
        by_cases hs : severity = "dangerous"
        · simp [scanPatterns, hp, hh, hs, ih]
        · simp [scanPatterns, hp, hh, hs, ih]

/-- The final severity of `run_automated_checks`, factored out: the three
structural overrides applied on top of the pattern-scan severity (the
line-count check never changes the severity). -/
def severityOf (code : String) : String :=
  if !(containsSub code "def hand_complete") then "invalid"
  else if !(containsSub code "def get_action") then "invalid"
  else if !(containsSub code "PokerBotAPI") then "invalid"
  else (scanPatterns code dangerous_patterns "safe" []).1

theorem run_checks_severity_eq (code : String) :
    (run_automated_checks code).severity = severityOf code := by
  unfold run_automated_checks severityOf
  cases h1 : containsSub code "PokerBotAPI" <;>
    cases h2 : containsSub code "def get_action" <;>
      cases h3 : containsSub code "def hand_complete" <;>
        simp [h1, h2, h3, apply_ite]

/-- Claim C8: the analyzer reports `"invalid"` whenever the base interface or
one of the two mandatory entry points is missing, regardless of pattern
matches; `"dangerous"` when the structure is fine but a process/command or
dynamic-execution (high) pattern occurs; and `"safe"` when the structure is
fine and no catalogue pattern occurs at all. -/
theorem c8_analyzer_classification (code : String) :
    (structureOk code = false → (run_automated_checks code).severity = "invalid") ∧
    (structureOk code = true → hitsHighPattern code = true →
      (run_automated_checks code).severity = "dangerous") ∧
    (structureOk code = true → hitsAnyPattern code = false →
      (run_automated_checks code).severity = "safe") := by
  refine ⟨?_, ?_, ?_⟩
  · intro hs
    rw [run_checks_severity_eq]
    unfold structureOk at hs
    unfold severityOf
    cases h1 : containsSub code "PokerBotAPI" <;>
      cases h2 : containsSub code "def get_action" <;>
        cases h3 : containsSub code "def hand_complete" <;>
          simp_all
  · intro hs hh
    rw [run_checks_severity_eq]
    unfold structureOk at hs
    rw [Bool.and_eq_true, Bool.and_eq_true] at hs
    obtain ⟨⟨h1, h2⟩, h3⟩ := hs
    unfold severityOf
    simp only [h1, h2, h3, Bool.not_true, Bool.false_eq_true, if_false]
    rw [scanPatterns_dangerous_iff]
    right
    rw [hitsHighPattern, List.any_eq_true] at hh
    obtain ⟨p, hp, hcond⟩ := hh
    rw [Bool.and_eq_true] at hcond
    exact ⟨p, hp, hcond.1, hcond.2⟩
  · intro hs hn
    rw [run_checks_severity_eq]
    unfold structureOk at hs
    rw [Bool.and_eq_true, Bool.and_eq_true] at hs
    obtain ⟨⟨h1, h2⟩, h3⟩ := hs
    unfold severityOf
    simp only [h1, h2, h3, Bool.not_true, Bool.false_eq_true, if_false]
    apply scanPatterns_no_match
    intro p hp
    rw [hitsAnyPattern] at hn
    simpa using List.any_eq_false.mp hn p hp

theorem c8_analyzer_classification_witness :
    (run_automated_checks "x = 1").severity = "invalid" ∧
    (run_automated_checks
      "class B(PokerBotAPI):\n def get_action\n def hand_complete\n eval(z)").severity =
      "dangerous" ∧
    (run_automated_checks
      "class B(PokerBotAPI):\n def get_action\n def hand_complete").severity = "safe" :=
  ⟨(c8_analyzer_classification "x = 1").1 (by decide),
   (c8_analyzer_classification
      "class B(PokerBotAPI):\n def get_action\n def hand_complete\n eval(z)").2.1
     (by decide) (by decide),
   (c8_analyzer_classification
      "class B(PokerBotAPI):\n def get_action\n def hand_complete").2.2
     (by decide) (by decide)⟩

theorem find_map_mkBotView (l : List (String × BotMeta)) (k : String) :
    (l.map (fun p => mkBotView p.1 p.2)).find? (fun v => v.name == k) =
      (alGet l k).map (mkBotView k) := by
  induction l with
  | nil => rfl
  | cons p ps ih =>
    rw [List.map_cons]
    cases hpk : (p.1 == k) with
    | true =>
      have hk : p.1 = k := by simpa using hpk
      rw [List.find?_cons_of_pos]
      · simp [alGet, hpk, hk]
      · simp [mkBotView, hpk]
    | false =>
      rw [List.find?_cons_of_neg]
      · simp [alGet, hpk, ih]
      · simp [mkBotView, hpk]

theorem list_bots_find (s : StorageState) (k : String) :
    (list_bots s).find? (fun v => v.name == k) = (alGet s.bots k).map (mkBotView k) :=
  find_map_mkBotView s.bots k

/-- Claim C9: a successful `update_bot` carries the previous `wins` and
`total_games` forward, so `list_bots` reports for that name the same counts
after the update as before it. -/
theorem c9_update_preserves_stats (sem : BotSem) (s : StorageState)
    (name new_code pw salt : String) (now : Nat) (meta : BotMeta)
    (hmeta : alGet s.bots name = some meta)
    (hsucc : (update_bot sem s name new_code pw salt now).1.success = true) :
    (list_bots s).find? (fun v => v.name == name) = some (mkBotView name meta) ∧
    ∃ v, (list_bots (update_bot sem s name new_code pw salt now).2).find?
        (fun v => v.name == name) = some v ∧
      v.wins = meta.wins ∧ v.total_games = meta.total_games := by
  refine ⟨by rw [list_bots_find, hmeta]; rfl, ?_⟩
  cases hload : load_bot sem s name pw with
  | none => simp [update_bot, hmeta, hload] at hsucc
  | some inst =>
    cases hv : (validate_bot_code sem new_code name).1 with
    | false => simp [update_bot, hmeta, hload, hv] at hsucc
    | true =>
      rw [list_bots_find]
      simp [update_bot, hmeta, hload, hv, upload_bot, alHas, alGet_erase_self,
        mkBotView, fernetEncrypt, generate_encryption_key]

/-- Custody store holding bot `nm` with statistics 3/10, loadable with `pw`. -/
def ssStats : StorageState :=
  { bots := [("nm", { bot_id := "b1", upload_date := 0, wins := 3, total_games := 10 })],
    encFiles := [("b1", { keyPw := "pw", keySalt := "s1", plaintext := "codeA" })],
    saltFiles := [("b1", "s1")] }

theorem c9_update_preserves_stats_witness :
    ∃ v, (list_bots (update_bot semAll ssStats "nm" "codeB" "pw" "s2" 9).2).find?
        (fun v => v.name == "nm") = some v ∧
      v.wins = 3 ∧ v.total_games = 10 := by
  have h := c9_update_preserves_stats semAll ssStats "nm" "codeB" "pw" "s2" 9
    { bot_id := "b1", upload_date := 0, wins := 3, total_games := 10 } (by decide) (by decide)
  exact h.2

/-- Claim C5 counterexample: `SecureBotStorage._save_metadata` opens the
metadata file for writing directly, with no temporary file and no
rename/replace, so its trace is not atomic for the target. -/
theorem c5_atomic_persistence_counterexample :
    atomicFor "encrypted_bots/metadata.json"
      (save_metadata_ops "encrypted_bots/metadata.json" "data") = false := by
  decide

/-- Claim C5 (amended): only the submission table is written atomically
(staged in a `.tmp` file, then renamed over the target); the custody
metadata store and the admin/audit store are rewritten in place. -/
theorem c5_atomic_persistence (file content : String) :
    atomicFor file (save_submissions_ops file content) = true ∧
    atomicFor file (save_metadata_ops file content) = false ∧
    atomicFor file (save_auth_data_ops file content) = false := by
  refine ⟨?_, by simp [atomicFor, save_metadata_ops], by simp [atomicFor, save_auth_data_ops]⟩
  have hne : (file ++ ".tmp") ≠ file := by
    intro h
    have hlen : (file ++ ".tmp").length = file.length := congrArg String.length h
    have h4 : ".tmp".length = 4 := by decide
    rw [String.length_append, h4] at hlen
    omega
  simp [atomicFor, save_submissions_ops, hne]

theorem c5_atomic_persistence_witness :
    atomicFor "f.json" (save_submissions_ops "f.json" "x") = true ∧
    atomicFor "f.json" (save_metadata_ops "f.json" "x") = false ∧
    atomicFor "f.json" (save_auth_data_ops "f.json" "x") = false :=
  c5_atomic_persistence "f.json" "x"

/-- Claim C10: authenticating against an existing but deactivated account
returns the distinct message `Account is disabled` (not the uniform
`Invalid credentials`), does not touch the origin's failed-attempt counter
and sets no lockout. -/
theorem c10_disabled_account (s : AuthState) (username password ip : String) (now : Nat)
    (admin : AdminAccount)
    (hrate : (((alGet s.rate_limit_storage ip).getD []).filter
        (fun t => now - t < 60)).length < 5)
    (hlock : alGet s.lockout_until ip = none)
    (hadmin : alGet s.admins username = some admin)
    (hact : admin.is_active = false) :
    (authenticate s username password ip now).1.error = some "Account is disabled" ∧
    (authenticate s username password ip now).1.error ≠ some "Invalid credentials" ∧
    (authenticate s username password ip now).1.success = false ∧
    (authenticate s username password ip now).2.failed_attempts = s.failed_attempts ∧
    (authenticate s username password ip now).2.lockout_until = s.lockout_until := by
  have hnotover : ¬ ((((alGet s.rate_limit_storage ip).getD []).filter
      (fun t => now - t < 60)).length ≥ 5) := by omega
  simp [authenticate, check_rate_limit, is_locked_out, log_audit_event,
    hnotover, hlock, hadmin, hact]

/-- Deactivated account record used by the C10 witness. -/
def disabledAccount : AdminAccount :=
  { password_hash := "pwd12345", created_at := 0, last_login := none, is_active := false }

/-- Auth store holding a single deactivated account. -/
def authDisabledState : AuthState :=
  { admins := [("olduser", disabledAccount)], audit_log := [],
    rate_limit_storage := [], failed_attempts := [], lockout_until := [] }

theorem c10_disabled_account_witness :
    (authenticate authDisabledState "olduser" "pwd12345" "203.0.113.7" 50).1.error =
      some "Account is disabled" ∧
    (authenticate authDisabledState "olduser" "pwd12345" "203.0.113.7" 50).1.error ≠
      some "Invalid credentials" ∧
    (authenticate authDisabledState "olduser" "pwd12345" "203.0.113.7" 50).1.success = false ∧
    (authenticate authDisabledState "olduser" "pwd12345" "203.0.113.7" 50).2.failed_attempts =
      authDisabledState.failed_attempts ∧
    (authenticate authDisabledState "olduser" "pwd12345" "203.0.113.7" 50).2.lockout_until =
      authDisabledState.lockout_until :=
  c10_disabled_account authDisabledState "olduser" "pwd12345" "203.0.113.7" 50
    disabledAccount (by decide) (by decide) (by decide) (by decide)

/-- Enabled admin account whose password is `correcthorse`. -/
def adminAccount : AdminAccount :=
  { password_hash := "correcthorse", created_at := 0, last_login := none, is_active := true }

/-- Fresh auth state with the single account `admin`. -/
def authStart : AuthState :=
  { admins := [("admin", adminAccount)], audit_log := [],
    rate_limit_storage := [], failed_attempts := [], lockout_until := [] }

/-- State after five wrong-password attempts from one origin at seconds 0..4. -/
def afterFiveWrong : AuthState :=
  [0, 1, 2, 3, 4].foldl (fun st t => (authenticate st "admin" "bad" "203.0.113.7" t).2) authStart

/-- Claim C4 counterexample: after 5 wrong attempts within one minute the
origin is locked out until second 904, yet the 6th call at second 5 — with
the correct password, well inside the lockout window — fails with the
rate-limit error, not with the lockout error the claim requires, because
`authenticate` consults the 5-per-60s rate limiter before the lockout. -/
theorem c4_lockout_counterexample :
    alGet afterFiveWrong.lockout_until "203.0.113.7" = some 904 ∧
    (authenticate afterFiveWrong "admin" "correcthorse" "203.0.113.7" 5).1.success = false ∧
    (authenticate afterFiveWrong "admin" "correcthorse" "203.0.113.7" 5).1.error =
      some "Too many requests. Please try again in 1 minute." ∧
    (authenticate afterFiveWrong "admin" "correcthorse" "203.0.113.7" 5).1.error ≠
      some "Too many failed attempts. Try again in 14 minutes." := by
  decide

/-- Claim C4 (amended): the 5th consecutive wrong-password failure arms a
15-minute (900 s) lockout; while the lockout is active, a call that passes
the 5-per-60s rate limiter fails with the lockout error regardless of the
supplied password, but a call that exceeds the rate limiter fails with the
rate-limit error instead; once the lockout has elapsed, a rate-limit-passing
call with the correct password succeeds and clears the origin's
failed-attempt counter. -/
theorem c4_lockout_behavior :
    (∀ (s : AuthState) (username password ip : String) (now : Nat) (admin : AdminAccount),
      (((alGet s.rate_limit_storage ip).getD []).filter (fun t2 => now - t2 < 60)).length < 5 →
      alGet s.lockout_until ip = none →
      alGet s.admins username = some admin →
      admin.is_active = true →
      verify_password password admin.password_hash = false →
      alGet s.failed_attempts ip = some 4 →
      alGet (authenticate s username password ip now).2.lockout_until ip = some (now + 900)) ∧
    (∀ (s : AuthState) (username password ip : String) (now t : Nat),
      (((alGet s.rate_limit_storage ip).getD []).filter (fun t2 => now - t2 < 60)).length < 5 →
      alGet s.lockout_until ip = some t →
      now < t →
      (authenticate s username password ip now).1.success = false ∧
      (authenticate s username password ip now).1.error =
        some ("Too many failed attempts. Try again in " ++
          toString ((t - now) / 60) ++ " minutes.")) ∧
    (∀ (s : AuthState) (username password ip : String) (now : Nat),
      (((alGet s.rate_limit_storage ip).getD []).filter (fun t2 => now - t2 < 60)).length ≥ 5 →
      (authenticate s username password ip now).1.success = false ∧
      (authenticate s username password ip now).1.error =
        some "Too many requests. Please try again in 1 minute.") ∧
    (∀ (s : AuthState) (username password ip : String) (now t : Nat) (admin : AdminAccount),
      (((alGet s.rate_limit_storage ip).getD []).filter (fun t2 => now - t2 < 60)).length < 5 →
      alGet s.lockout_until ip = some t →
      t ≤ now →
      alGet s.admins username = some admin →
      admin.is_active = true →
      verify_password password admin.password_hash = true →
      (authenticate s username password ip now).1.success = true ∧
      alGet (authenticate s username password ip now).2.failed_attempts ip = none) := by
  refine ⟨?_, ?_, ?_, ?_⟩
  · intro s username password ip now admin hrate hlock hadmin hact hverify h4
    have hnotover : ¬ ((((alGet s.rate_limit_storage ip).getD []).filter
        (fun t2 => now - t2 < 60)).length ≥ 5) := by omega
    simp [authenticate, check_rate_limit, is_locked_out, record_failed_attempt,
      log_audit_event, hnotover, hlock, hadmin, hact, hverify, h4]
  · intro s username password ip now t hrate hlock hnow
    have hnotover : ¬ ((((alGet s.rate_limit_storage ip).getD []).filter
        (fun t2 => now - t2 < 60)).length ≥ 5) := by omega
    simp [authenticate, check_rate_limit, is_locked_out, log_audit_event,
      hnotover, hlock, hnow]
  · intro s username password ip now hover
    simp [authenticate, check_rate_limit, log_audit_event, hover]
  · intro s username password ip now t admin hrate hlock hexp hadmin hact hverify
    have hnotover : ¬ ((((alGet s.rate_limit_storage ip).getD []).filter
        (fun t2 => now - t2 < 60)).length ≥ 5) := by omega
    have hnotlt : ¬ (now < t) := by omega
    simp [authenticate, check_rate_limit, is_locked_out, log_audit_event,
      reset_failed_attempts, hnotover, hlock, hnotlt, hadmin, hact, hverify,
      alGet_erase_self]

/-- Locked-out auth state for the C4 witness: lockout until second 1000. -/
def authLocked : AuthState :=
  { admins := [("admin", adminAccount)], audit_log := [],
    rate_limit_storage := [], failed_attempts := [("203.0.113.7", 5)],
    lockout_until := [("203.0.113.7", 1000)] }

theorem c4_lockout_behavior_witness :
    ((authenticate authLocked "admin" "correcthorse" "203.0.113.7" 100).1.success = false ∧
     (authenticate authLocked "admin" "correcthorse" "203.0.113.7" 100).1.error =
       some ("Too many failed attempts. Try again in " ++
         toString ((1000 - 100) / 60) ++ " minutes.")) ∧
    ((authenticate authLocked "admin" "correcthorse" "203.0.113.7" 1000).1.success = true ∧
     alGet (authenticate authLocked "admin" "correcthorse" "203.0.113.7"
       1000).2.failed_attempts "203.0.113.7" = none) := by
  refine ⟨c4_lockout_behavior.2.1 authLocked "admin" "correcthorse" "203.0.113.7" 100 1000
    (by decide) (by decide) (by decide), ?_⟩
  exact c4_lockout_behavior.2.2.2 authLocked "admin" "correcthorse" "203.0.113.7" 1000 1000
    adminAccount (by decide) (by decide) (by decide) (by decide) (by decide) (by decide)

end PokerCustody
